import Mathlib

/-
Verification of the gateway orchestration core of the ThingsBoard IoT gateway
(`thingsboard_gateway/gateway/tb_gateway_service.py`) against its natural-language
specification.  The Python code is shallowly embedded: Python dicts become ordered
association lists with unique keys, worker loops become explicit recursion over the
inputs they consume, wall-clock and monotonic times become explicit numeric
parameters, and external side effects (publishing, logging, persistence writes)
become values recorded in the results of the embedded functions.
-/

set_option maxRecDepth 10000

/-! ## Ordered-dictionary model shared by all components

Python dicts preserve insertion order and have unique keys.  We model them as
association lists together with the operations the gateway code uses. -/

def dictHasKey {α β : Type} [DecidableEq α] (d : List (α × β)) (k : α) : Bool :=
  d.any (fun p => decide (p.1 = k))

/-- Python `d[k] = v`: replace in place when the key exists, else append. -/
def dictSet {α β : Type} [DecidableEq α] (d : List (α × β)) (k : α) (v : β) : List (α × β) :=
  if dictHasKey d k then d.map (fun p => if p.1 = k then (k, v) else p) else d ++ [(k, v)]

/-- Python `d.pop(k, None)`. -/
def dictPop {α β : Type} [DecidableEq α] (d : List (α × β)) (k : α) : List (α × β) :=
  d.filter (fun p => !(decide (p.1 = k)))

/-- Python `d.update(u)`. -/
def dictUpdate {α β : Type} [DecidableEq α] (d u : List (α × β)) : List (α × β) :=
  u.foldl (fun acc p => dictSet acc p.1 p.2) d

/-- Python `d.get(k)`. -/
def dictGet? {α β : Type} [DecidableEq α] (d : List (α × β)) (k : α) : Option β :=
  (d.find? (fun p => decide (p.1 = k))).map (·.2)

/-- Modelled from the spec: `TBUtility.get_dict_key_by_value` (the utility module is
not part of the sources under verification) returns the first key of the dict whose
value equals the given value, or `None`. -/
def get_dict_key_by_value {α β : Type} [DecidableEq β] (d : List (α × β)) (v : β) :
    Option α :=
  (d.find? (fun p => decide (p.2 = v))).map (·.1)

/-! ## Device renaming (`__process_renamed_gateway_devices`, lines 736-757)

The renaming mapping `__renamed_devices` maps `originalName -> currentName`.
A rename event is a one-entry dict `{old: new}`. -/

/-- Embedding of `__process_renamed_gateway_devices` restricted to its effect on the
`__renamed_devices` mapping, with `handleDeviceRenaming` enabled (its default).
Mirrors the source line by line: if `old` is currently an image, the key mapping to
it is either popped (when that key equals `new`) or redirected to `new`; otherwise
the entry `old -> new` is written (unless `old = new`). -/
def process_renamed_gateway_devices (renamed : List (String × String))
    (old_device_name new_device_name : String) : List (String × String) :=
  let step1 :=
    if (renamed.map (·.2)).contains old_device_name then
      match get_dict_key_by_value renamed old_device_name with
      | some k => if k = new_device_name then (none, dictPop renamed k) else (some k, renamed)
      | none => (none, renamed)
    else (some old_device_name, renamed)
  match step1 with
  | (some k, m) => if k ≠ new_device_name then dictSet m k new_device_name else m
  | (none, m) => m

/-- The no-two-hop invariant claimed by the spec: no value of the renaming mapping is
also a key of it. -/
def noTwoHop (renamed : List (String × String)) : Bool :=
  renamed.all (fun p => !(dictHasKey renamed p.2))

/-! ## Gateway-targeted RPC processing (`__rpc_gateway_processing`, lines 1685-1713)

The reply value and the scheduled-call list update are modelled; the local method
tables are abstracted to their key sets, which is all the routing inspects before a
handler is invoked. -/

/-- Python `s.replace(pat, '')` on character lists: removes every non-overlapping
occurrence of `pat`, scanning left to right.  Structural recursion on a fuel that
starts at the length of the scanned list (each step consumes at least one
character, so the fuel suffices). -/
def removeOccurrencesAux (pat : List Char) : Nat → List Char → List Char
  | 0, s => s
  | _ + 1, [] => []
  | fuel + 1, c :: rest =>
    if 1 ≤ pat.length ∧ pat.isPrefixOf (c :: rest) then
      removeOccurrencesAux pat fuel ((c :: rest).drop pat.length)
    else
      c :: removeOccurrencesAux pat fuel rest

def removeOccurrences (pat s : List Char) : List Char :=
  removeOccurrencesAux pat s.length s

/-- Python `content['method'].replace('gateway_', '')`. -/
def replaceGatewayPrefixWithEmpty (method : String) : String :=
  String.mk (removeOccurrences "gateway_".toList method.toList)

inductive GwReply : Type where
  /-- The exact reply `{"error": "Method not found", "code": 404}`. -/
  | errorMethodNotFound404 : GwReply
  /-- The exact reply `{"success": true}`. -/
  | successTrue : GwReply
  /-- The result of invoking the named local method. -/
  | handlerResult (methodName : String) : GwReply
deriving DecidableEq, Repr

structure GwRpcResult : Type where
  reply : GwReply
  /-- Wall-clock firing times (ms) appended to `__scheduled_rpc_calls`. -/
  scheduledFireAtMs : List Nat
deriving DecidableEq, Repr

/-- Embedding of `__rpc_gateway_processing`.  `shellCommands?` is
`remote_shell.shell_commands` when the remote shell is enabled, `gatewayMethods` the
key set of `__gateway_rpc_methods` (including custom-loaded methods), and
`scheduledMethods` the key set of `__rpc_scheduled_methods_functions`
(`restart`, `reboot`).  `argsNum?` is `content['params']` when it is a number,
`none` when absent; `nowMs` is `time() * 1000`.  The method-name lookup strips every
occurrence of the substring `gateway_`, as `str.replace` does. -/
def rpc_gateway_processing (shellCommands? : Option (List String))
    (gatewayMethods scheduledMethods : List String) (nowMs : Nat)
    (argsNum? : Option Nat) (method : String) : GwRpcResult :=
  let method_to_call := replaceGatewayPrefixWithEmpty method
  let methodFound :=
    match shellCommands? with
    | some cmds => cmds.contains method_to_call || gatewayMethods.contains method_to_call
    | none => gatewayMethods.contains method_to_call
  if !methodFound && scheduledMethods.contains method_to_call then
    let seconds_to_restart :=
      match argsNum? with
      | some a => if a ≠ 0 then a * 1000 else 1000
      | none => 1000
    let seconds_to_restart := max seconds_to_restart 1000
    { reply := GwReply.successTrue, scheduledFireAtMs := [nowMs + seconds_to_restart] }
  else if !methodFound then
    { reply := GwReply.errorMethodNotFound404, scheduledFireAtMs := [] }
  else
    { reply := GwReply.handlerResult method_to_call, scheduledFireAtMs := [] }

/-! ## Event-store put with retry (`__send_data_pack_to_storage`, lines 1378-1396)

The store's `put` is modelled as an oracle from the attempt index to its boolean
result.  The embedded function records how many `put` calls were made, how many
100 ms sleeps were taken, the final `save_result`, and whether the error was
logged (the fragment dropped). -/

structure PutOutcome : Type where
  putCalls : Nat
  sleeps100ms : Nat
  saved : Bool
  errorLogged : Bool
deriving DecidableEq, Repr

/-- The retry loop of `__send_data_pack_to_storage`: `tries = 4`, and while the
result is false and `current_try < tries`, sleep 0.1 s and call `put` again.
`remaining` counts `tries - current_try`; `calls` counts calls already made. -/
def put_retry_loop (put : Nat → Bool) : Nat → Nat → Bool → Nat × Bool
  | 0, calls, r => (calls, r)
  | n + 1, calls, r =>
    if r then (calls, r) else put_retry_loop put n (calls + 1) (put calls)

/-- Embedding of `__send_data_pack_to_storage` after serialization: one initial
`put`, then the retry loop; on final failure the error is logged and the fragment
dropped.  The embedding is total, so no exception escapes it. -/
def send_data_pack_to_storage (put : Nat → Bool) : PutOutcome :=
  let r0 := put 0
  let (calls, result) := put_retry_loop put 4 1 r0
  { putCalls := calls, sleeps100ms := calls - 1, saved := result, errorLogged := !result }

/-! ## Hot configuration reload (`check_connector_configuration_updates`,
lines 1100-1112, and `_load_connectors` snapshot at lines 946-952)

Each connector slot records `config_updated = stat(config_file_path)`.  The poll
compares the current `os.stat` result against that snapshot; file content is never
read by the comparison. -/

/-- The part of an `os.stat` result relevant to the comparison: any field change
(modification time, size, ...) makes the results compare unequal. -/
structure FileStatResult : Type where
  mtimeNs : Nat
  sizeBytes : Nat
deriving DecidableEq, Repr

/-- A sidecar configuration file on disk: its current content and current stat. -/
structure SidecarFile : Type where
  content : String
  stat : FileStatResult
deriving DecidableEq, Repr

/-- A connector configuration slot as recorded by `_load_connectors`: the content
that was loaded and the `os.stat` snapshot taken at load time (`config_updated`). -/
structure ConnectorConfigSlot : Type where
  loadedContent : String
  configUpdated : FileStatResult
deriving DecidableEq, Repr

/-- The changed-detection of `check_connector_configuration_updates`:
`stat(connector_config["config_file_path"]) != connector_config["config_updated"]`
for any slot. -/
def connector_configuration_changed (slots : List (ConnectorConfigSlot × SidecarFile)) :
    Bool :=
  slots.any (fun s => decide (s.2.stat ≠ s.1.configUpdated))

/-- Number of close-all-connectors / reload / reconnect cycles performed by one
poll of `check_connector_configuration_updates`: one when a change was detected
(`__close_connectors`; `_load_connectors`; `__connect_with_connectors`), else none. -/
def reload_cycles_per_poll (slots : List (ConnectorConfigSlot × SidecarFile)) : Nat :=
  if connector_configuration_changed slots then 1 else 0

/-! ## Telemetry timestamp normalization (`__convert_telemetry_to_ts`,
lines 1358-1376)

A legacy telemetry entry either lacks a `ts` field (a flat key/value dict), has an
integer `ts` with a `values` dict, or has a non-integer `ts` with a `values` dict.
Scalar values are modelled as natural numbers; only presence and identity of the
datapoints matter to the claims. -/

abbrev ValuesDict := List (String × Nat)

inductive LegacyTelemetryItem : Type where
  /-- `item.get('ts') is None`: a flat dict of datapoints. -/
  | noTs (flat : ValuesDict)
  /-- An integer `ts` with its `values` dict. -/
  | intTs (ts : Int) (values : ValuesDict)
  /-- A `ts` present but not an `int` (e.g. a float or string). -/
  | badTs (values : ValuesDict)
deriving DecidableEq, Repr

inductive NormalizedTelemetry : Type where
  /-- `data['telemetry'] = telemetry_with_ts` (a list of `{ts, values}` entries). -/
  | entryList (entries : List (Int × ValuesDict))
  /-- `data['telemetry'] = {'ts': now, 'values': merged}` (a single dict). -/
  | singleMerged (ts : Int) (values : ValuesDict)
deriving DecidableEq, Repr

structure ConvertTsResult : Type where
  telemetry : NormalizedTelemetry
  warningsLogged : Nat
deriving DecidableEq, Repr

/-- Embedding of `__convert_telemetry_to_ts`.  One pass over the items: ts-less
items are merged into the `telemetry` dict, items with an integer `ts` are appended
to `telemetry_with_ts` unchanged, items with a non-integer `ts` are appended with
the current wall-clock ms and a warning.  Afterwards `data['telemetry']` becomes
`telemetry_with_ts` when that list is nonempty, else the single merged dict stamped
with the current time when the original list was nonempty, else it is left
unchanged (the empty list). -/
def convertTsLoopStep (nowMs : Int) (acc : ValuesDict × List (Int × ValuesDict) × Nat)
    (item : LegacyTelemetryItem) : ValuesDict × List (Int × ValuesDict) × Nat :=
  match item with
  | .noTs flat => (dictUpdate acc.1 flat, acc.2.1, acc.2.2)
  | .intTs t v => (acc.1, acc.2.1 ++ [(t, v)], acc.2.2)
  | .badTs v => (acc.1, acc.2.1 ++ [(nowMs, v)], acc.2.2 + 1)

def convert_telemetry_to_ts (nowMs : Int) (items : List LegacyTelemetryItem) :
    ConvertTsResult :=
  let acc := items.foldl (convertTsLoopStep nowMs) ([], [], 0)
  if acc.2.1 ≠ [] then { telemetry := .entryList acc.2.1, warningsLogged := acc.2.2 }
  else if items.length > 0 then
    { telemetry := .singleMerged nowMs acc.1, warningsLogged := acc.2.2 }
  else { telemetry := .entryList [], warningsLogged := acc.2.2 }

/-- Whether the item carries a `ts` field at all. -/
def itemHasTsField : LegacyTelemetryItem → Bool
  | .noTs _ => false
  | .intTs _ _ => true
  | .badTs _ => true

def itemHasBadTs : LegacyTelemetryItem → Bool
  | .badTs _ => true
  | _ => false

/-- The `{ts, values}` entry an item with a `ts` field contributes to
`telemetry_with_ts`. -/
def normalizeTsItem (nowMs : Int) : LegacyTelemetryItem → Option (Int × ValuesDict)
  | .noTs _ => none
  | .intTs t v => some (t, v)
  | .badTs v => some (nowMs, v)

/-- The flat dict a ts-less item contributes to the merge. -/
def noTsFlat : LegacyTelemetryItem → Option ValuesDict
  | .noTs flat => some flat
  | _ => none

/-- The merged `telemetry` dict built from the ts-less items. -/
def mergedNoTsDict (items : List LegacyTelemetryItem) : ValuesDict :=
  items.foldl
    (fun m item => match item with | .noTs flat => dictUpdate m flat | _ => m) []

/-! ## Device registry `add_device` (lines 1882-1931)

The platform client, the shared-attribute sync queue and the persistence file are
modelled as recorded effects.  A connector is identified by its id, name, type and
whether it implements `get_device_shared_attributes_keys`. -/

structure ConnectorRef : Type where
  id : Nat
  name : String
  ctype : String
  hasSharedAttrKeysHook : Bool
deriving DecidableEq, Repr

structure DeviceInfo : Type where
  connector : ConnectorRef
  deviceType : String
deriving DecidableEq, Repr

structure DeviceRegistryState : Type where
  connectedDevices : List (String × DeviceInfo)
  savedDevices : List (String × DeviceInfo)
  renamedDevices : List (String × String)
  disconnectedDevices : List (String × DeviceInfo)
  devicesSharedAttributes : List (String × ValuesDict)
  /-- `__added_devices`: device name to the `{connectorType, connectorName}`
  details last announced for it. -/
  addedDevices : List (String × (String × String))
deriving DecidableEq, Repr

structure AddDeviceEffects : Type where
  persistentSnapshotWrites : Nat
  gwConnectDeviceCalls : List (String × String)
  gwSendAttributesCalls : List (String × (String × String))
  /-- Items put on `__sync_device_shared_attrs_queue`: device name and connector id. -/
  sharedAttrsSyncQueued : List (String × Nat)
deriving DecidableEq, Repr

def noAddDeviceEffects : AddDeviceEffects :=
  { persistentSnapshotWrites := 0, gwConnectDeviceCalls := [],
    gwSendAttributesCalls := [], sharedAttrsSyncQueued := [] }

/-- Embedding of `add_device`.  `clientConnected` is
`tb_client is not None and tb_client.is_connected()`;
`syncSharedAttrsOnConnect` is the `syncDevicesSharedAttributesOnConnect` option.
The early guard clears the whole shared-attribute cache and returns `False`;
otherwise the renamed, already-known and fresh-insert branches follow the source
(`content` always carries a connector here, as at every call site). -/
def add_device (clientConnected syncSharedAttrsOnConnect : Bool)
    (s : DeviceRegistryState) (device_name : String) (connector : ConnectorRef)
    (device_type? : Option String) : Bool × DeviceRegistryState × AddDeviceEffects :=
  if !clientConnected then
    (false, { s with devicesSharedAttributes := [] }, noAddDeviceEffects)
  else
    let device_type := device_type?.getD "default"
    if dictHasKey s.renamedDevices device_name then
      let renamedTo := (dictGet? s.renamedDevices device_name).getD device_name
      let queued :=
        if syncSharedAttrsOnConnect && connector.hasSharedAttrKeysHook then
          [(renamedTo, connector.id)]
        else []
      (true,
        { s with disconnectedDevices := dictPop s.disconnectedDevices device_name },
        { noAddDeviceEffects with persistentSnapshotWrites := 1,
                                  sharedAttrsSyncQueued := queued })
    else if dictHasKey s.connectedDevices device_name ||
        (get_dict_key_by_value s.renamedDevices device_name).isSome then
      let queued :=
        if syncSharedAttrsOnConnect && connector.hasSharedAttrKeysHook then
          [(device_name, connector.id)]
        else []
      (true, s, { noAddDeviceEffects with sharedAttrsSyncQueued := queued })
    else
      let info : DeviceInfo := { connector := connector, deviceType := device_type }
      let s1 := { s with
        connectedDevices := dictSet s.connectedDevices device_name info,
        savedDevices := dictSet s.savedDevices device_name info }
      let detailsChanged :=
        match dictGet? s1.addedDevices device_name with
        | none => true
        | some d => d.1 ≠ connector.ctype || d.2 ≠ connector.name
      let s2 :=
        if detailsChanged then
          { s1 with addedDevices :=
              dictSet s1.addedDevices device_name (connector.ctype, connector.name) }
        else s1
      let attrSends :=
        if detailsChanged then [(device_name, (connector.ctype, connector.name))]
        else []
      let queued :=
        if syncSharedAttrsOnConnect && connector.hasSharedAttrKeysHook then
          [(device_name, connector.id)]
        else []
      (true, s2,
        { persistentSnapshotWrites := 1,
          gwConnectDeviceCalls := [(device_name, device_type)],
          gwSendAttributesCalls := attrSends,
          sharedAttrsSyncQueued := queued })

/-! ## Dispatcher pack acknowledgement (`__read_data_from_storage` lines 1517-1530,
`__handle_published_events` lines 1540-1582, `__process_published_event`)

Each publish handle's eventual `get()` outcome is an input.  The client's
`is_connected()` is sampled three times in the relevant window (before handling, on
draining confirmations, and at the acknowledgement check), and
`__remote_configurator.in_process` is sampled twice (at the acknowledgement guard
of line 1518 and at the drain check of lines 1554-1555); each sample is a separate
input, since both the connection and the configurator can change between reads. -/

inductive PublishConfirmOutcome : Type where
  /-- `event.get() == event.TB_ERR_SUCCESS`. -/
  | success
  /-- `event.get()` returned a non-success error code. -/
  | errorCode
  /-- `event.get()` raised; `__process_published_event` catches and returns False. -/
  | raised
deriving DecidableEq, Repr

/-- Embedding of `__process_published_event`. -/
def process_published_event : PublishConfirmOutcome → Bool
  | .success => true
  | .errorCode => false
  | .raised => false

/-- Embedding of `__handle_published_events`: drained handles that are empty return
False; confirmation futures are collected only when the client is connected and
the remote configurator idle at this point (lines 1554-1555) and the QoS is 1; any
false future returns False. -/
def handle_published_events (connectedAtDrain remoteIdleAtDrain : Bool)
    (qos : Nat) (events : List PublishConfirmOutcome) : Bool :=
  if events.isEmpty then false
  else
    let futures :=
      if connectedAtDrain && remoteIdleAtDrain && qos == 1 then
        events.map process_published_event
      else []
    futures.all (fun b => b)

/-- Whether one dispatcher iteration calls `EventStore.event_pack_processing_done`,
per lines 1517-1523: the client must be connected and the remote configurator idle
at the acknowledgement guard (line 1518), `__handle_published_events` (with its own
reads of the connection and the configurator) must return success, and the client
must still be connected at the acknowledgement check. -/
def event_pack_processing_done_called
    (connectedBeforeHandling connectedAtDrain connectedAtAck
      remoteIdleAtAckGuard remoteIdleAtDrain : Bool) (qos : Nat)
    (events : List PublishConfirmOutcome) : Bool :=
  connectedBeforeHandling && remoteIdleAtAckGuard &&
    handle_published_events connectedAtDrain remoteIdleAtDrain qos events &&
    connectedAtAck

/-! ## Device-targeted RPC worker (`__rpc_to_devices_processing`, lines 1655-1683)

One pass of the worker body over a queued item, and the induced run of a single
item across successive polls (each poll at its own monotonic time).  A handler
invocation is recorded as an action; the worker itself sends a reply only for the
timeout case and for a handler result carrying an `error` key. -/

def DEFAULT_TIMEOUT : Nat := 5

structure RpcDeviceItem : Type where
  requestId : Nat
  device : String
  /-- `content.get('params', {}).get('timeout', DEFAULT_TIMEOUT)`. -/
  timeoutParam? : Option Nat
  receivedTime : Nat
deriving DecidableEq, Repr

inductive RpcHandlerReturn : Type where
  /-- The handler returned None or a dict without an `error` key: the worker sends
  nothing and relies on the connector to reply on its own. -/
  | silentOrNoError
  /-- The handler returned a dict containing `error`: relayed as a failure reply. -/
  | errorDict
deriving DecidableEq, Repr

inductive DeviceConnectorState : Type where
  | noConnector
  | connector (handlerReturn : RpcHandlerReturn)
deriving DecidableEq, Repr

inductive RpcDeviceAction : Type where
  /-- The reply `{"error": "Request timeout", "code": 408}`. -/
  | replyRequestTimeout408 (device : String) (requestId : Nat)
  | invokeServerSideRpcHandler (device : String) (requestId : Nat)
  | relayErrorReply (device : String) (requestId : Nat)
  | logConnectorNotFound (device : String)
deriving DecidableEq, Repr

inductive RpcStepResult : Type where
  | done (actions : List RpcDeviceAction)
  /-- The item was put back on the queue with its original received time. -/
  | requeued
deriving DecidableEq, Repr

/-- `content['device']` after the inverse renaming lookup. -/
def resolved_device_name (renamedDevices : List (String × String))
    (device : String) : String :=
  match get_dict_key_by_value renamedDevices device with
  | some original => original
  | none => device

/-- One pass of the `__rpc_to_devices_processing` body over a dequeued item. -/
def rpc_to_devices_step (renamedDevices : List (String × String))
    (devices : List (String × DeviceConnectorState)) (nowMonotonic : Nat)
    (item : RpcDeviceItem) : RpcStepResult :=
  let timeout := item.timeoutParam?.getD DEFAULT_TIMEOUT
  if nowMonotonic - item.receivedTime > timeout then
    .done [.replyRequestTimeout408 item.device item.requestId]
  else
    let device := resolved_device_name renamedDevices item.device
    match dictGet? devices device with
    | some (.connector hret) =>
      .done ([.invokeServerSideRpcHandler device item.requestId] ++
        (match hret with
         | .errorDict => [.relayErrorReply device item.requestId]
         | .silentOrNoError => []))
    | some .noConnector => .done [.logConnectorNotFound device]
    | none => .requeued
/-- The actions produced for a single queued item across successive polls of the
worker loop, each poll happening at the corresponding monotonic time.  Once a poll
finishes the item (anything but a requeue), the item is gone from the queue and no
further action is produced for it. -/
def rpc_to_devices_run (renamedDevices : List (String × String))
    (devices : List (String × DeviceConnectorState)) :
    List Nat → RpcDeviceItem → List RpcDeviceAction
  | [], _ => []
  | t :: ts, item =>
    match rpc_to_devices_step renamedDevices devices t item with
    | .done actions => actions
    | .requeued => rpc_to_devices_run renamedDevices devices ts item

/-- Whether an action is the 408 timeout reply for the given request id. -/
def isTimeout408For (requestId : Nat) : RpcDeviceAction → Bool
  | .replyRequestTimeout408 _ i => decide (i = requestId)
  | _ => false

/-- Whether an action sends any reply at all for the given request id. -/
def isReplyFor (requestId : Nat) : RpcDeviceAction → Bool
  | .replyRequestTimeout408 _ i => decide (i = requestId)
  | .relayErrorReply _ i => decide (i = requestId)
  | _ => false

/-! ## Payload splitting of legacy-format records
(`__send_to_storage_old_formatted_data`, lines 1294-1346)

`TBUtility.get_data_size` is modelled from the spec as the length of the compact
JSON serialization (the utility module is not among the sources under
verification); scalar values are natural numbers serialized in decimal.  The
splitter accumulates `adopted_data_size` from the measured sizes of the pieces it
adds (the empty record, each attribute dict, each telemetry datapoint), exactly as
the source does. -/

structure TsKvEntry : Type where
  ts : Nat
  values : ValuesDict
deriving DecidableEq, Repr

structure LegacyRecord : Type where
  deviceName : String
  deviceType : String
  /-- `data['attributes']`: the list of attribute dicts the splitter iterates. -/
  attributes : List ValuesDict
  telemetry : List TsKvEntry
deriving DecidableEq, Repr

/-- An `adopted_data` record handed to the storage writer: attributes coalesced
into one dict, telemetry as entries grouped by ts.  Device name and type are those
of the original record. -/
structure Fragment : Type where
  attributes : ValuesDict
  telemetry : List TsKvEntry
deriving DecidableEq, Repr

/-- Modelled from the spec: decimal digit count of a scalar. -/
def natDecimalLen (n : Nat) : Nat := (Nat.toDigits 10 n).length

/-- Modelled from the spec: compact-JSON length of a quoted string. -/
def jsonStringSize (s : String) : Nat := s.length + 2

def jsonKvSize (p : String × Nat) : Nat := jsonStringSize p.1 + 1 + natDecimalLen p.2

/-- Compact-JSON length of a flat dict. -/
def jsonDictSize (d : ValuesDict) : Nat :=
  2 + (d.map jsonKvSize).sum + (d.length - 1)

/-- Compact-JSON length of one `{ts, values}` telemetry entry. -/
def jsonTsEntrySize (e : TsKvEntry) : Nat :=
  2 + (4 + 1 + natDecimalLen e.ts) + 1 + (8 + 1 + jsonDictSize e.values)

def jsonTsEntryListSize (l : List TsKvEntry) : Nat :=
  2 + (l.map jsonTsEntrySize).sum + (l.length - 1)

def jsonAttrListSize (l : List ValuesDict) : Nat :=
  2 + (l.map jsonDictSize).sum + (l.length - 1)

/-- `TBUtility.get_data_size(data)` for the incoming legacy record, whose
`attributes` field is still the submitted list of dicts. -/
def legacy_record_size (d : LegacyRecord) : Nat :=
  2 + (jsonStringSize "deviceName" + 1 + jsonStringSize d.deviceName)
    + 1 + (jsonStringSize "deviceType" + 1 + jsonStringSize d.deviceType)
    + 1 + (jsonStringSize "attributes" + 1 + jsonAttrListSize d.attributes)
    + 1 + (jsonStringSize "telemetry" + 1 + jsonTsEntryListSize d.telemetry)

/-- `TBUtility.get_data_size(adopted_data)` for a fragment. -/
def fragment_size (d : LegacyRecord) (f : Fragment) : Nat :=
  2 + (jsonStringSize "deviceName" + 1 + jsonStringSize d.deviceName)
    + 1 + (jsonStringSize "deviceType" + 1 + jsonStringSize d.deviceType)
    + 1 + (jsonStringSize "attributes" + 1 + jsonDictSize f.attributes)
    + 1 + (jsonStringSize "telemetry" + 1 + jsonTsEntryListSize f.telemetry)

def empty_adopted_data_size (d : LegacyRecord) : Nat :=
  fragment_size d { attributes := [], telemetry := [] }

/-- A fragment sent from inside one of the two loops, together with the value of
`adopted_data_size` before its last piece was added and the measured size of that
last piece (their sum is the accumulated size that triggered the flush). -/
structure SentFragment : Type where
  fragment : Fragment
  sizeBeforeLastPiece : Nat
  lastPieceSize : Nat
deriving DecidableEq, Repr

structure SplitState : Type where
  sentFrags : List SentFragment
  curAttributes : ValuesDict
  curTelemetry : List TsKvEntry
  adoptedDataSize : Nat
deriving DecidableEq, Repr

/-- One turn of the attribute loop (lines 1304-1311): merge the attribute dict into
`adopted_data['attributes']`, add its measured size, and once the accumulated size
reaches `max_data_size` send what is there and clear the attributes (telemetry is
kept), resetting the size to the empty-record size. -/
def split_step_attribute (maxDataSize emptySize : Nat) (s : SplitState)
    (attributeItem : ValuesDict) : SplitState :=
  let attrs := dictUpdate s.curAttributes attributeItem
  let piece := jsonDictSize attributeItem
  let size := s.adoptedDataSize + piece
  if maxDataSize ≤ size then
    { sentFrags := s.sentFrags ++
        [{ fragment := { attributes := attrs, telemetry := s.curTelemetry },
           sizeBeforeLastPiece := s.adoptedDataSize, lastPieceSize := piece }],
      curAttributes := [], curTelemetry := s.curTelemetry,
      adoptedDataSize := emptySize }
  else
    { s with curAttributes := attrs, adoptedDataSize := size }

/-- One turn of the inner telemetry loop (lines 1317-1336) for a single datapoint
`(ts, key, v)`: when an entry with the same ts is already adopted
(`ts in ts_to_index`), the datapoint is merged into its `values` dict and the
measured piece is the one-key dict; otherwise a fresh `{ts, values}` entry is
appended and measured whole.  Once the accumulated size reaches `max_data_size`,
send what is there and clear both telemetry and attributes (and the grouping). -/
def split_step_kv (maxDataSize emptySize : Nat) (s : SplitState) (ts : Nat)
    (key : String) (v : Nat) : SplitState :=
  let grouped := s.curTelemetry.any (fun e => decide (e.ts = ts))
  let tele :=
    if grouped then
      s.curTelemetry.map (fun e =>
        if e.ts = ts then { e with values := dictSet e.values key v } else e)
    else
      s.curTelemetry ++ [{ ts := ts, values := [(key, v)] }]
  let piece :=
    if grouped then jsonDictSize [(key, v)]
    else jsonTsEntrySize { ts := ts, values := [(key, v)] }
  let size := s.adoptedDataSize + piece
  if maxDataSize ≤ size then
    { sentFrags := s.sentFrags ++
        [{ fragment := { attributes := s.curAttributes, telemetry := tele },
           sizeBeforeLastPiece := s.adoptedDataSize, lastPieceSize := piece }],
      curAttributes := [], curTelemetry := [], adoptedDataSize := emptySize }
  else
    { s with curTelemetry := tele, adoptedDataSize := size }

/-- The `(ts, key, value)` datapoints of a telemetry list, in iteration order of
the two nested loops. -/
def telemetryTriples (tele : List TsKvEntry) : List (Nat × String × Nat) :=
  tele.flatMap (fun e => e.values.map (fun p => (e.ts, p.1, p.2)))

/-- Embedding of the splitting branch of `__send_to_storage_old_formatted_data`
(lines 1294-1344): the attribute loop, then the telemetry loops over every
datapoint, starting from an empty adopted record whose measured size is the
empty-record size. -/
def split_old_formatted_run (maxDataSize : Nat) (d : LegacyRecord) : SplitState :=
  let emptySize := empty_adopted_data_size d
  let s0 : SplitState :=
    { sentFrags := [], curAttributes := [], curTelemetry := [],
      adoptedDataSize := emptySize }
  let s1 := d.attributes.foldl (split_step_attribute maxDataSize emptySize) s0
  (telemetryTriples d.telemetry).foldl
    (fun s x => split_step_kv maxDataSize emptySize s x.1 x.2.1 x.2.2) s1

/-- The fragments handed to `__send_data_pack_to_storage`: the flushed ones in
order, then the leftover when it still holds telemetry or attributes
(lines 1338-1341). -/
def split_old_formatted_data (maxDataSize : Nat) (d : LegacyRecord) :
    List Fragment :=
  let s := split_old_formatted_run maxDataSize d
  s.sentFrags.map (·.fragment) ++
    (if s.curTelemetry.length > 0 ∨ s.curAttributes.length > 0 then
      [{ attributes := s.curAttributes, telemetry := s.curTelemetry }]
    else [])

/-- All attribute datapoints over a fragment list. -/
def fragmentsAttrDatapoints (fs : List Fragment) : List (String × Nat) :=
  fs.flatMap (·.attributes)

/-- All telemetry datapoints over a fragment list. -/
def fragmentsTelemetryTriples (fs : List Fragment) : List (Nat × String × Nat) :=
  fs.flatMap (fun f => telemetryTriples f.telemetry)

/-- The attribute datapoints a split state accounts for: those in already-flushed
fragments plus the currently adopted ones. -/
def stateAttrDatapoints (s : SplitState) : List (String × Nat) :=
  fragmentsAttrDatapoints (s.sentFrags.map (·.fragment)) ++ s.curAttributes

/-- The telemetry datapoints a split state accounts for. -/
def stateTriples (s : SplitState) : List (Nat × String × Nat) :=
  fragmentsTelemetryTriples (s.sentFrags.map (·.fragment)) ++
    telemetryTriples s.curTelemetry

/-- The `(ts, key)` pairs currently adopted. -/
def pairsOf (tele : List TsKvEntry) : List (Nat × String) :=
  (telemetryTriples tele).map (fun x => (x.1, x.2.1))

/-- The size-accounting bounds of the splitter: the running size stays below the
limit, and every flushed fragment was below the limit before its last piece and at
or above it with that piece. -/
def sizeBounds (maxDataSize : Nat) (s : SplitState) : Prop :=
  s.adoptedDataSize < maxDataSize ∧
  ∀ sf ∈ s.sentFrags, sf.sizeBeforeLastPiece < maxDataSize ∧
    maxDataSize ≤ sf.sizeBeforeLastPiece + sf.lastPieceSize

/-- A concrete oversize record: one attribute datapoint, no telemetry. -/
def recordSingleAttr : LegacyRecord :=
  { deviceName := "d", deviceType := "t", attributes := [[("a", 1)]],
    telemetry := [] }

/-- A concrete record carrying the attribute key a twice with different values. -/
def recordDupAttrKey : LegacyRecord :=
  { deviceName := "d", deviceType := "t",
    attributes := [[("a", 1)], [("a", 2)]], telemetry := [] }

/-- A concrete record with one attribute and three telemetry datapoints, two of
them sharing a timestamp. -/
def recordMixed : LegacyRecord :=
  { deviceName := "d", deviceType := "t", attributes := [[("a", 1)]],
    telemetry := [{ ts := 1, values := [("b", 2)] },
                  { ts := 1, values := [("c", 3)] },
                  { ts := 2, values := [("b", 4)] }] }

/-- The adopted telemetry after merging a datapoint into the entry with its ts. -/
def mergedTelemetry (cur : List TsKvEntry) (ts : Nat) (key : String) (v : Nat) :
    List TsKvEntry :=
  cur.map (fun e2 =>
    if e2.ts = ts then { e2 with values := dictSet e2.values key v } else e2)

-- THEOREMS BELOW THIS LINE

/-! ## Theorems -/

section RenamingTheorems

/-- C4: the spec claims that after any sequence of rename events the mapping never
contains a two-hop chain (no value is also a key).  This fails: renaming A to B and
then renaming C to A (a fresh device taking the vacated name A) yields the mapping
with entries A to B and C to A, in which the value A of key C is itself a key. -/
theorem renaming_two_hop_counterexample :
    process_renamed_gateway_devices
        (process_renamed_gateway_devices [] "A" "B") "C" "A"
      = [("A", "B"), ("C", "A")] ∧
    noTwoHop (process_renamed_gateway_devices
        (process_renamed_gateway_devices [] "A" "B") "C" "A") = false := by
  constructor <;> decide

/-- C4 (amended): the normalization works only when the event's old name is the
current image of an existing entry: renaming A to B and then B to C leaves the single
entry A to C, and renaming B back to A removes the entry; a rename whose new name
collides with an existing key is still inserted and can create a value that is also a
key. -/
theorem renaming_compose_and_undo (A B C : String) (hab : A ≠ B) (hbc : B ≠ C)
    (hac : A ≠ C) :
    process_renamed_gateway_devices (process_renamed_gateway_devices [] A B) B C
      = [(A, C)] ∧
    process_renamed_gateway_devices (process_renamed_gateway_devices [] A B) B A
      = [] := by
  have h1 : process_renamed_gateway_devices [] A B = [(A, B)] := by
    simp [process_renamed_gateway_devices, get_dict_key_by_value, dictSet, dictHasKey, hab]
  constructor
  · rw [h1]
    simp [process_renamed_gateway_devices, get_dict_key_by_value, dictSet, dictPop,
      dictHasKey, hac, hbc]
  · rw [h1]
    simp [process_renamed_gateway_devices, get_dict_key_by_value, dictSet, dictPop,
      dictHasKey]

/-- Witness for the amended C4 theorem at concrete device names. -/
theorem renaming_compose_and_undo_witness :
    process_renamed_gateway_devices
        (process_renamed_gateway_devices [] "d1" "d2") "d2" "d3" = [("d1", "d3")] ∧
    process_renamed_gateway_devices
        (process_renamed_gateway_devices [] "d1" "d2") "d2" "d1" = [] := by
  exact renaming_compose_and_undo "d1" "d2" "d3" (by decide) (by decide) (by decide)

end RenamingTheorems

section GatewayRpcTheorems

/-- C5: a gateway-targeted RPC whose stripped method name is in none of the
remote-shell command table, the local gateway method table (ping, stats, devices,
update, version, device_renamed, device_deleted and custom-loaded methods) and the
scheduled-methods table is answered with exactly the reply
`{"error": "Method not found", "code": 404}`, and nothing is scheduled. -/
theorem gateway_rpc_unknown_method_404 (shellCommands? : Option (List String))
    (gatewayMethods scheduledMethods : List String) (nowMs : Nat)
    (argsNum? : Option Nat) (method : String)
    (hShell : ∀ cmds, shellCommands? = some cmds →
      replaceGatewayPrefixWithEmpty method ∉ cmds)
    (hGw : replaceGatewayPrefixWithEmpty method ∉ gatewayMethods)
    (hSched : replaceGatewayPrefixWithEmpty method ∉ scheduledMethods) :
    rpc_gateway_processing shellCommands? gatewayMethods scheduledMethods nowMs
        argsNum? method
      = { reply := GwReply.errorMethodNotFound404, scheduledFireAtMs := [] } := by
  unfold rpc_gateway_processing
  cases hc : shellCommands? with
  | none => simp [hGw, hSched]
  | some cmds => simp [hGw, hSched, hShell cmds hc]

/-- Witness for C5 with the real method tables and the literal unknown method
`gateway_foo` of the spec scenario. -/
theorem gateway_rpc_unknown_method_404_witness :
    rpc_gateway_processing (some ["sudo"])
        ["ping", "stats", "devices", "update", "version", "device_renamed",
          "device_deleted"]
        ["restart", "reboot"] 1000 none "gateway_foo"
      = { reply := GwReply.errorMethodNotFound404, scheduledFireAtMs := [] } := by
  exact gateway_rpc_unknown_method_404 (some ["sudo"])
    ["ping", "stats", "devices", "update", "version", "device_renamed",
      "device_deleted"]
    ["restart", "reboot"] 1000 none "gateway_foo"
    (by intro cmds h; cases h; decide) (by decide) (by decide)

/-- C8: the spec claims the argument of a scheduled method (restart, reboot) is
interpreted as milliseconds, firing at now + max(args, 1000) ms.  The code multiplies
the argument by 1000, interpreting it as seconds: with args = 5 the call fires at
now + 5000 ms, not at now + max(5, 1000) = now + 1000 ms. -/
theorem scheduled_rpc_milliseconds_counterexample :
    rpc_gateway_processing none
        ["ping", "stats", "devices", "update", "version", "device_renamed",
          "device_deleted"]
        ["restart", "reboot"] 0 (some 5) "gateway_restart"
      = { reply := GwReply.successTrue, scheduledFireAtMs := [5000] } ∧
    (5000 : Nat) ≠ max 5 1000 := by
  constructor
  · decide
  · decide

/-- C8 (amended): the scheduled-method argument is interpreted as seconds.  When the
stripped method name is only in the scheduled table, the call is recorded to fire at
now + max(args * 1000, 1000) ms (with a truthy numeric argument; 1000 ms when the
argument is absent or zero), and the reply `{"success": true}` is returned by the
processing function itself, before the scheduled function ever runs. -/
theorem scheduled_rpc_fire_time (shellCommands? : Option (List String))
    (gatewayMethods scheduledMethods : List String) (nowMs a : Nat) (method : String)
    (hShell : ∀ cmds, shellCommands? = some cmds →
      replaceGatewayPrefixWithEmpty method ∉ cmds)
    (hGw : replaceGatewayPrefixWithEmpty method ∉ gatewayMethods)
    (hSched : replaceGatewayPrefixWithEmpty method ∈ scheduledMethods) :
    rpc_gateway_processing shellCommands? gatewayMethods scheduledMethods nowMs
        (some a) method
      = { reply := GwReply.successTrue,
          scheduledFireAtMs := [nowMs + max (if a ≠ 0 then a * 1000 else 1000) 1000] } := by
  unfold rpc_gateway_processing
  cases hc : shellCommands? with
  | none =>
    by_cases ha : a = 0 <;> simp [hGw, hSched, ha]
  | some cmds =>
    by_cases ha : a = 0 <;> simp [hGw, hSched, hShell cmds hc, ha]

/-- Witness for the amended C8 theorem: `gateway_restart` with argument 5 at
now = 0 fires at 5000 ms and replies success immediately. -/
theorem scheduled_rpc_fire_time_witness :
    rpc_gateway_processing none
        ["ping", "stats", "devices", "update", "version", "device_renamed",
          "device_deleted"]
        ["restart", "reboot"] 0 (some 5) "gateway_restart"
      = { reply := GwReply.successTrue, scheduledFireAtMs := [5000] } := by
  have h := scheduled_rpc_fire_time none
    ["ping", "stats", "devices", "update", "version", "device_renamed",
      "device_deleted"]
    ["restart", "reboot"] 0 5 "gateway_restart"
    (by intro cmds h; cases h) (by decide) (by decide)
  simpa using h

end GatewayRpcTheorems

section PutRetryTheorems

/-- C6: for every fragment write, at most 5 `put` calls are made in total (1 initial
plus at most 4 retries), a 100 ms sleep precedes each retry (sleeps = calls - 1),
and when the final result is a failure all 5 attempts returned false, the error is
logged and the fragment is dropped; the embedded writer is a total function, so no
exception propagates out of it. -/
theorem storage_put_retry_bound (put : Nat → Bool) :
    (send_data_pack_to_storage put).putCalls ≤ 5 ∧
    (send_data_pack_to_storage put).sleeps100ms
      = (send_data_pack_to_storage put).putCalls - 1 ∧
    ((send_data_pack_to_storage put).saved = false →
      (send_data_pack_to_storage put).putCalls = 5 ∧
      (∀ i, i < 5 → put i = false) ∧
      (send_data_pack_to_storage put).errorLogged = true) ∧
    ((send_data_pack_to_storage put).saved = true →
      (send_data_pack_to_storage put).errorLogged = false) := by
  by_cases h0 : put 0 <;> by_cases h1 : put 1 <;> by_cases h2 : put 2 <;>
    by_cases h3 : put 3 <;> by_cases h4 : put 4 <;>
    simp [send_data_pack_to_storage, put_retry_loop, h0, h1, h2, h3, h4] <;>
    (intro i hi; interval_cases i <;> simp_all)

/-- Witness for C6 with a store that always refuses: 5 calls, 4 sleeps, dropped with
a logged error. -/
theorem storage_put_retry_bound_witness :
    (send_data_pack_to_storage (fun _ => false)).putCalls ≤ 5 ∧
    (send_data_pack_to_storage (fun _ => false)).putCalls = 5 ∧
    (send_data_pack_to_storage (fun _ => false)).sleeps100ms = 4 ∧
    (send_data_pack_to_storage (fun _ => false)).errorLogged = true := by
  have h := storage_put_retry_bound (fun _ => false)
  have hfail : (send_data_pack_to_storage (fun _ => false)).saved = false := by decide
  refine ⟨h.1, (h.2.2.1 hfail).1, ?_, (h.2.2.1 hfail).2.2⟩
  rw [h.2.1, (h.2.2.1 hfail).1]

end PutRetryTheorems

section HotReloadTheorems

/-- C9: the spec claims a touched sidecar file (same content, new modification time)
produces no reload.  The code compares `os.stat` results, which include the
modification time and know nothing of content: a pure touch makes the comparison
unequal and one close-and-reopen cycle is performed. -/
theorem hot_reload_touch_counterexample :
    (let slot : ConnectorConfigSlot :=
      { loadedContent := "cfg", configUpdated := { mtimeNs := 1, sizeBytes := 10 } }
     let touched : SidecarFile :=
      { content := "cfg", stat := { mtimeNs := 2, sizeBytes := 10 } }
     touched.content = slot.loadedContent ∧
       reload_cycles_per_poll [(slot, touched)] = 1) := by
  constructor <;> decide

/-- C9 (amended): one hot-reload poll performs a close-and-reopen cycle if and only
if some sidecar's current `os.stat` result differs from the recorded snapshot
(content is never compared, so a touch that only updates the modification time does
trigger a reload), and it never performs more than one cycle. -/
theorem hot_reload_stat_based (slots : List (ConnectorConfigSlot × SidecarFile)) :
    (reload_cycles_per_poll slots = 1 ↔
      ∃ s ∈ slots, s.2.stat ≠ s.1.configUpdated) ∧
    reload_cycles_per_poll slots ≤ 1 := by
  have hch : connector_configuration_changed slots = true ↔
      ∃ s ∈ slots, s.2.stat ≠ s.1.configUpdated := by
    simp [connector_configuration_changed]
  unfold reload_cycles_per_poll
  by_cases h : connector_configuration_changed slots = true
  · rw [if_pos h]
    exact ⟨⟨fun _ => hch.mp h, fun _ => rfl⟩, le_refl 1⟩
  · rw [if_neg h]
    exact ⟨⟨fun h01 => absurd h01 (by omega), fun hex => absurd (hch.mpr hex) h⟩,
      by omega⟩

end HotReloadTheorems

section DictLemmas

/-- Setting a fresh key appends the pair. -/
theorem dictSet_of_fresh {α β : Type} [DecidableEq α] (d : List (α × β)) (k : α)
    (v : β) (h : dictHasKey d k = false) : dictSet d k v = d ++ [(k, v)] := by
  unfold dictSet
  rw [h]
  simp

/-- Updating with a dict whose keys are all fresh and pairwise distinct appends it. -/
theorem dictUpdate_of_fresh {α β : Type} [DecidableEq α] :
    ∀ (u d : List (α × β)),
      ((d.map (·.1)) ++ (u.map (·.1))).Nodup → dictUpdate d u = d ++ u := by
  intro u
  induction u with
  | nil => intro d _; simp [dictUpdate]
  | cons p ps ih =>
    intro d hnd
    have hfresh : dictHasKey d p.1 = false := by
      by_contra hcontra
      have hmem : p.1 ∈ d.map (·.1) := by
        have : dictHasKey d p.1 = true := by
          cases hdk : dictHasKey d p.1
          · exact absurd hdk hcontra
          · rfl
        unfold dictHasKey at this
        simp only [List.any_eq_true, decide_eq_true_eq] at this
        obtain ⟨q, hq, hqk⟩ := this
        exact List.mem_map.mpr ⟨q, hq, hqk⟩
      have hdisj := List.disjoint_of_nodup_append hnd
      exact hdisj hmem (by simp)
    have step : dictUpdate d (p :: ps) = dictUpdate (d ++ [p]) ps := by
      unfold dictUpdate
      simp only [List.foldl_cons]
      rw [show dictSet d p.1 p.2 = d ++ [p] from by
        rw [dictSet_of_fresh d p.1 p.2 hfresh]]
    rw [step, ih (d ++ [p]) ?_, List.append_assoc]
    · rfl
    · have : (d ++ [p]).map (·.1) ++ ps.map (·.1) = d.map (·.1) ++ (p.1 :: ps.map (·.1)) := by
        simp
      rw [this]
      simpa using hnd

end DictLemmas

section TelemetryTsTheorems

/-- C7: the spec claims no telemetry entry is lost and ts-less entries get the
current time substituted with a warning, also in records mixing entries with and
without ts.  In a mixed record the code keeps only the entries that carried a ts:
the ts-less datapoint a is silently dropped (zero warnings).  Moreover an integer
ts is kept verbatim even when it is not positive. -/
theorem telemetry_mixed_ts_counterexample :
    convert_telemetry_to_ts 1700000000000
        [LegacyTelemetryItem.noTs [("a", 1)], LegacyTelemetryItem.intTs 5 [("b", 2)]]
      = { telemetry := NormalizedTelemetry.entryList [(5, [("b", 2)])],
          warningsLogged := 0 } ∧
    convert_telemetry_to_ts 1700000000000 [LegacyTelemetryItem.intTs (-3) [("b", 2)]]
      = { telemetry := NormalizedTelemetry.entryList [(-3, [("b", 2)])],
          warningsLogged := 0 } := by
  constructor <;> decide

/-- The collecting loop of `__convert_telemetry_to_ts`, characterized. -/
theorem convertTsLoop_spec (nowMs : Int) :
    ∀ (items : List LegacyTelemetryItem) (m : ValuesDict)
      (l : List (Int × ValuesDict)) (w : Nat),
      items.foldl (convertTsLoopStep nowMs) (m, l, w)
        = (items.foldl
            (fun m2 it => match it with | .noTs f => dictUpdate m2 f | _ => m2) m,
           l ++ items.filterMap (normalizeTsItem nowMs),
           w + (items.filter itemHasBadTs).length) := by
  intro items
  induction items with
  | nil => intro m l w; simp
  | cons it its ih =>
    intro m l w
    cases it with
    | noTs flat =>
      simp only [List.foldl_cons, convertTsLoopStep, List.filterMap_cons,
        normalizeTsItem, List.filter_cons, itemHasBadTs]
      rw [ih]
      simp
    | intTs t v =>
      simp only [List.foldl_cons, convertTsLoopStep, List.filterMap_cons,
        normalizeTsItem, List.filter_cons, itemHasBadTs]
      rw [ih]
      simp
    | badTs v =>
      simp only [List.foldl_cons, convertTsLoopStep, List.filterMap_cons,
        normalizeTsItem, List.filter_cons, itemHasBadTs]
      rw [ih]
      simp [Nat.add_comm, Nat.add_assoc, Nat.add_left_comm]

/-- Helper: the merged no-ts dict is the concatenation of the flat dicts when their
keys are pairwise distinct. -/
theorem mergedNoTsDict_of_nodup :
    ∀ (items : List LegacyTelemetryItem) (m : ValuesDict),
      ((m.map (·.1)) ++ ((items.filterMap noTsFlat).flatten.map (·.1))).Nodup →
      items.foldl
          (fun m2 it => match it with | .noTs f => dictUpdate m2 f | _ => m2) m
        = m ++ (items.filterMap noTsFlat).flatten := by
  intro items
  induction items with
  | nil => intro m _; simp
  | cons it its ih =>
    intro m hnd
    cases it with
    | noTs flat =>
      simp only [List.foldl_cons, List.filterMap_cons, noTsFlat,
        List.flatten_cons] at hnd ⊢
      rw [List.map_append, ← List.append_assoc] at hnd
      have hupd : dictUpdate m flat = m ++ flat := by
        apply dictUpdate_of_fresh
        exact (List.nodup_append.mp hnd).1
      rw [hupd, ih (m ++ flat) ?_, List.append_assoc]
      rw [List.map_append]
      exact hnd
    | intTs t v =>
      simp only [List.foldl_cons, List.filterMap_cons, noTsFlat] at hnd ⊢
      exact ih m hnd
    | badTs v =>
      simp only [List.foldl_cons, List.filterMap_cons, noTsFlat] at hnd ⊢
      exact ih m hnd

/-- C7 (amended): entries carrying an integer ts are kept verbatim (in order, with
no positivity check); entries with a non-integer ts get the current wall-clock ms
and one warning each; entries lacking ts survive only when no entry of the record
carries a ts, in which case they are merged into a single entry stamped with the
current time (losslessly when the flat keys are pairwise distinct); in a mixed
record the ts-less entries are silently dropped. -/
theorem telemetry_normalization_characterized (nowMs : Int)
    (items : List LegacyTelemetryItem) :
    (items.any itemHasTsField = true →
      convert_telemetry_to_ts nowMs items
        = { telemetry := NormalizedTelemetry.entryList
              (items.filterMap (normalizeTsItem nowMs)),
            warningsLogged := (items.filter itemHasBadTs).length }) ∧
    (items.any itemHasTsField = false → items ≠ [] →
      convert_telemetry_to_ts nowMs items
        = { telemetry := NormalizedTelemetry.singleMerged nowMs (mergedNoTsDict items),
            warningsLogged := 0 }) ∧
    (((items.filterMap noTsFlat).flatten.map (·.1)).Nodup →
      mergedNoTsDict items = (items.filterMap noTsFlat).flatten) := by
  have hfm : ∀ it : LegacyTelemetryItem,
      normalizeTsItem nowMs it = none ↔ itemHasTsField it = false := by
    intro it; cases it <;> simp [normalizeTsItem, itemHasTsField]
  refine ⟨?_, ?_, ?_⟩
  · intro hany
    unfold convert_telemetry_to_ts
    rw [convertTsLoop_spec]
    have hne : items.filterMap (normalizeTsItem nowMs) ≠ [] := by
      intro hnil
      rw [List.filterMap_eq_nil_iff] at hnil
      simp only [List.any_eq_true] at hany
      obtain ⟨it, hit, hts⟩ := hany
      have := (hfm it).mp (hnil it hit)
      rw [this] at hts
      cases hts
    simp [hne]
  · intro hany hne
    unfold convert_telemetry_to_ts
    rw [convertTsLoop_spec]
    have hnil : items.filterMap (normalizeTsItem nowMs) = [] := by
      rw [List.filterMap_eq_nil_iff]
      intro it hit
      apply (hfm it).mpr
      simp only [List.any_eq_false] at hany
      simpa using hany it hit
    have hnobad : items.filter itemHasBadTs = [] := by
      rw [List.filter_eq_nil_iff]
      intro it hit
      simp only [List.any_eq_false] at hany
      have := hany it hit
      cases it <;> simp_all [itemHasBadTs, itemHasTsField]
    have hlen : 0 < items.length := List.length_pos.mpr hne
    simp [hnil, hnobad, hlen, mergedNoTsDict]
  · intro hnd
    unfold mergedNoTsDict
    have := mergedNoTsDict_of_nodup items [] (by simpa using hnd)
    simpa using this

/-- Witness for the amended C7 theorem: a record whose entries all lack ts is
merged into one entry stamped with the current time, losing nothing. -/
theorem telemetry_normalization_characterized_witness :
    convert_telemetry_to_ts 10 [LegacyTelemetryItem.noTs [("a", 1)]]
      = { telemetry := NormalizedTelemetry.singleMerged 10 [("a", 1)],
          warningsLogged := 0 } := by
  have h := (telemetry_normalization_characterized 10
    [LegacyTelemetryItem.noTs [("a", 1)]]).2.1 (by decide) (by decide)
  rw [h]
  decide

end TelemetryTsTheorems

section AddDeviceTheorems

/-- C10: calling `add_device` while the platform client is absent or disconnected
returns False, leaves the connected, saved and renamed maps untouched, writes no
persistence snapshot, performs no platform call, but resets the shared-attribute
cache of all devices to the empty dict. -/
theorem add_device_disconnected_no_insert (syncSharedAttrsOnConnect : Bool)
    (s : DeviceRegistryState) (device_name : String) (connector : ConnectorRef)
    (device_type? : Option String) :
    (add_device false syncSharedAttrsOnConnect s device_name connector
        device_type?).1 = false ∧
    (add_device false syncSharedAttrsOnConnect s device_name connector
        device_type?).2.1.connectedDevices = s.connectedDevices ∧
    (add_device false syncSharedAttrsOnConnect s device_name connector
        device_type?).2.1.savedDevices = s.savedDevices ∧
    (add_device false syncSharedAttrsOnConnect s device_name connector
        device_type?).2.1.renamedDevices = s.renamedDevices ∧
    (add_device false syncSharedAttrsOnConnect s device_name connector
        device_type?).2.2 = noAddDeviceEffects ∧
    (add_device false syncSharedAttrsOnConnect s device_name connector
        device_type?).2.1.devicesSharedAttributes = [] := by
  refine ⟨rfl, rfl, rfl, rfl, rfl, rfl⟩

end AddDeviceTheorems

section DispatcherAckTheorems

/-- C1: the spec claims the pack is acknowledged only if every publish handle
confirmed success.  Two failures.  (1) When the configured QoS is not 1,
`__handle_published_events` collects no confirmation futures and returns success
for any nonempty drained handle list, so the pack is acknowledged although a
handle would have reported an error.  (2) Even at QoS 1 with the client connected
throughout, `__remote_configurator.in_process` is read separately at the
acknowledgement guard (line 1518) and at the drain check (lines 1554-1555): when
the configurator turns busy between the two reads, no futures are collected, the
nonempty drained list still yields success, and the pack is acknowledged without
any per-handle confirmation. -/
theorem dispatcher_ack_qos_counterexample :
    event_pack_processing_done_called true true true true true 0
        [PublishConfirmOutcome.errorCode] = true ∧
    event_pack_processing_done_called true true true true false 1
        [PublishConfirmOutcome.errorCode] = true ∧
    PublishConfirmOutcome.errorCode ≠ PublishConfirmOutcome.success := by
  refine ⟨by decide, by decide, by decide⟩

/-- Helper: a confirmation future is true exactly for a successful `get()`. -/
theorem process_published_event_eq_true (o : PublishConfirmOutcome) :
    process_published_event o = true ↔ o = PublishConfirmOutcome.success := by
  cases o <;> simp [process_published_event]

/-- C1 (amended): when the configured QoS is 1 and, at the moment the
confirmations are drained (lines 1554-1555), the client is connected and the
remote configurator idle, `event_pack_processing_done` is called iff the client
was connected and the configurator idle at the acknowledgement guard, at least one
publish handle was drained, every drained handle confirmed success (`get()`
returned `TB_ERR_SUCCESS`, no error and no exception), and the client is still
connected at the acknowledgement check; otherwise the pack stays in the store for
replay. -/
theorem dispatcher_ack_requires_all_confirmed
    (connectedBeforeHandling connectedAtAck remoteIdleAtAckGuard : Bool)
    (events : List PublishConfirmOutcome) :
    event_pack_processing_done_called connectedBeforeHandling true connectedAtAck
        remoteIdleAtAckGuard true 1 events = true ↔
      (connectedBeforeHandling = true ∧ remoteIdleAtAckGuard = true ∧
        events ≠ [] ∧ (∀ e ∈ events, e = PublishConfirmOutcome.success) ∧
        connectedAtAck = true) := by
  cases events with
  | nil => simp [event_pack_processing_done_called, handle_published_events]
  | cons e es =>
    cases connectedBeforeHandling <;> cases connectedAtAck <;>
      cases remoteIdleAtAckGuard <;>
      simp [event_pack_processing_done_called, handle_published_events,
        List.all_map, Function.comp, process_published_event_eq_true]

/-- Witness for the amended C1 theorem: one successful confirmation with the
client connected and the configurator idle at every read acknowledges the pack. -/
theorem dispatcher_ack_requires_all_confirmed_witness :
    event_pack_processing_done_called true true true true true 1
        [PublishConfirmOutcome.success] = true := by
  exact (dispatcher_ack_requires_all_confirmed true true true
    [PublishConfirmOutcome.success]).mpr
    ⟨rfl, rfl, by decide, by intro e he; simpa using he, rfl⟩

end DispatcherAckTheorems

section DeviceRpcTheorems

/-- C3: the spec claims that when no device handler responds within the timeout,
exactly one 408 failure reply is sent.  But once the worker dequeues a request for
a known device with a live connector, it invokes the handler and never tracks the
response: with a handler that stays silent, no reply at all (in particular no 408)
is produced for the request, although the deadline (received + 1 s) has long passed
by the second poll. -/
theorem rpc_device_timeout_counterexample :
    rpc_to_devices_run []
        [("d1", DeviceConnectorState.connector RpcHandlerReturn.silentOrNoError)]
        [1, 100]
        { requestId := 7, device := "d1", timeoutParam? := some 1, receivedTime := 0 }
      = [RpcDeviceAction.invokeServerSideRpcHandler "d1" 7] ∧
    (rpc_to_devices_run []
        [("d1", DeviceConnectorState.connector RpcHandlerReturn.silentOrNoError)]
        [1, 100]
        { requestId := 7, device := "d1", timeoutParam? := some 1,
          receivedTime := 0 }).filter (isReplyFor 7) = [] ∧
    (100 : Nat) - 0 > 1 := by
  refine ⟨by decide, by decide, by decide⟩

/-- C3 (amended): the 408 timeout reply is produced exactly once, and only for a
request that is still undelivered when its deadline passes: while the target device
stays unknown the item keeps being requeued, and the first poll past
received + timeout sends exactly the single reply
`{"error": "Request timeout", "code": 408}` and drops the item.  Once a request has
been handed to a connector handler, the worker sends no timeout reply for it. -/
theorem rpc_device_timeout_when_undelivered (renamedDevices : List (String × String))
    (devices : List (String × DeviceConnectorState)) (times : List Nat)
    (item : RpcDeviceItem)
    (hUnknown : dictGet? devices (resolved_device_name renamedDevices item.device)
      = none)
    (hExpire : ∃ t ∈ times,
      t - item.receivedTime > item.timeoutParam?.getD DEFAULT_TIMEOUT) :
    rpc_to_devices_run renamedDevices devices times item
      = [RpcDeviceAction.replyRequestTimeout408 item.device item.requestId] ∧
    (rpc_to_devices_run renamedDevices devices times item).countP
      (isTimeout408For item.requestId) = 1 := by
  have hrun : rpc_to_devices_run renamedDevices devices times item
      = [RpcDeviceAction.replyRequestTimeout408 item.device item.requestId] := by
    induction times with
    | nil =>
      obtain ⟨t, ht, _⟩ := hExpire
      cases ht
    | cons t ts ih =>
      by_cases hexp : t - item.receivedTime > item.timeoutParam?.getD DEFAULT_TIMEOUT
      · simp [rpc_to_devices_run, rpc_to_devices_step, hexp]
      · have hstep : rpc_to_devices_step renamedDevices devices t item
            = RpcStepResult.requeued := by
          simp [rpc_to_devices_step, hexp, hUnknown]
        rw [show rpc_to_devices_run renamedDevices devices (t :: ts) item
            = (match rpc_to_devices_step renamedDevices devices t item with
               | .done actions => actions
               | .requeued => rpc_to_devices_run renamedDevices devices ts item)
          from rfl, hstep]
        apply ih
        obtain ⟨t', ht', hgt⟩ := hExpire
        rcases List.mem_cons.mp ht' with h | h
        · subst h; exact absurd hgt hexp
        · exact ⟨t', h, hgt⟩
    
  refine ⟨hrun, ?_⟩
  rw [hrun]
  simp [isTimeout408For]

/-- Witness for the amended C3 theorem: a request for an unknown device polled at
monotonic times 2 and 10 with the default 5 s timeout yields the single 408 reply. -/
theorem rpc_device_timeout_when_undelivered_witness :
    rpc_to_devices_run [] [] [2, 10]
        { requestId := 9, device := "dX", timeoutParam? := none, receivedTime := 0 }
      = [RpcDeviceAction.replyRequestTimeout408 "dX" 9] := by
  exact (rpc_device_timeout_when_undelivered [] [] [2, 10]
    { requestId := 9, device := "dX", timeoutParam? := none, receivedTime := 0 }
    (by decide) ⟨10, by decide, by decide⟩).1

end DeviceRpcTheorems

section SplittingTheorems

/-- C2: the spec claims every fragment of an oversize record has serialized size at
most the limit L and that the fragments' datapoints form the same multiset as the
record's.  Both fail.  (1) The splitter flushes only after the accumulated size has
already reached L, so a record of size 73 > 10 split at L = 10 yields one fragment
of serialized size 71 > 10.  (2) Attribute dicts are merged with dict update, so a
record carrying the attribute key a twice (size 81 > 80, split at L = 80) loses the
datapoint (a, 1): it appears once in the record and zero times across the
fragments. -/
theorem split_oversize_and_loss_counterexample :
    (legacy_record_size recordSingleAttr > 10 ∧
      split_old_formatted_data 10 recordSingleAttr
        = [{ attributes := [("a", 1)], telemetry := [] }] ∧
      fragment_size recordSingleAttr
          { attributes := [("a", 1)], telemetry := [] } > 10) ∧
    (legacy_record_size recordDupAttrKey > 80 ∧
      (fragmentsAttrDatapoints
          (split_old_formatted_data 80 recordDupAttrKey)).count ("a", 1) = 0 ∧
      (recordDupAttrKey.attributes.flatten).count ("a", 1) = 1) := by
  refine ⟨⟨by decide, by decide, by decide⟩, by decide, by decide, by decide⟩

/-- Helper: one attribute step preserves the size bounds. -/
theorem sizeBounds_step_attribute (L e : Nat) (he : e < L) (s : SplitState)
    (a : ValuesDict) (h : sizeBounds L s) :
    sizeBounds L (split_step_attribute L e s a) := by
  unfold split_step_attribute
  by_cases hb : L ≤ s.adoptedDataSize + jsonDictSize a
  · rw [if_pos hb]
    refine ⟨he, ?_⟩
    intro sf hsf
    rcases List.mem_append.mp hsf with h1 | h1
    · exact h.2 sf h1
    · rcases List.mem_singleton.mp h1 with rfl
      exact ⟨h.1, hb⟩
  · rw [if_neg hb]
    refine ⟨?_, h.2⟩
    show s.adoptedDataSize + jsonDictSize a < L
    omega

/-- Helper: one telemetry-datapoint step preserves the size bounds. -/
theorem sizeBounds_step_kv (L e : Nat) (he : e < L) (s : SplitState) (ts : Nat)
    (key : String) (v : Nat) (h : sizeBounds L s) :
    sizeBounds L (split_step_kv L e s ts key v) := by
  unfold split_step_kv
  by_cases hb : L ≤ s.adoptedDataSize +
      (if s.curTelemetry.any (fun e2 => decide (e2.ts = ts)) then
        jsonDictSize [(key, v)]
      else jsonTsEntrySize { ts := ts, values := [(key, v)] })
  · rw [if_pos hb]
    refine ⟨he, ?_⟩
    intro sf hsf
    rcases List.mem_append.mp hsf with h1 | h1
    · exact h.2 sf h1
    · rcases List.mem_singleton.mp h1 with rfl
      exact ⟨h.1, hb⟩
  · rw [if_neg hb]
    refine ⟨?_, h.2⟩
    show s.adoptedDataSize +
        (if s.curTelemetry.any (fun e2 => decide (e2.ts = ts)) then
          jsonDictSize [(key, v)]
        else jsonTsEntrySize { ts := ts, values := [(key, v)] }) < L
    omega

/-- Helper: the attribute loop preserves the size bounds. -/
theorem sizeBounds_foldl_attr (L e : Nat) (he : e < L) :
    ∀ (as : List ValuesDict) (s : SplitState), sizeBounds L s →
      sizeBounds L (as.foldl (split_step_attribute L e) s) := by
  intro as
  induction as with
  | nil => intro s h; exact h
  | cons a rest ih =>
    intro s h
    exact ih _ (sizeBounds_step_attribute L e he s a h)

/-- Helper: the telemetry loop preserves the size bounds. -/
theorem sizeBounds_foldl_kv (L e : Nat) (he : e < L) :
    ∀ (xs : List (Nat × String × Nat)) (s : SplitState), sizeBounds L s →
      sizeBounds L
        (xs.foldl (fun s2 x => split_step_kv L e s2 x.1 x.2.1 x.2.2) s) := by
  intro xs
  induction xs with
  | nil => intro s h; exact h
  | cons x rest ih =>
    intro s h
    exact ih _ (sizeBounds_step_kv L e he s x.1 x.2.1 x.2.2 h)

/-- Helper: the whole splitter run keeps the size bounds whenever the empty
adopted record itself fits below the limit. -/
theorem sizeBounds_run (L : Nat) (d : LegacyRecord)
    (he : empty_adopted_data_size d < L) :
    sizeBounds L (split_old_formatted_run L d) := by
  unfold split_old_formatted_run
  apply sizeBounds_foldl_kv L _ he
  apply sizeBounds_foldl_attr L _ he
  exact ⟨he, fun sf h => absurd h (List.not_mem_nil sf)⟩

end SplittingTheorems

/-- Helper: a contiguous middle portion of a nodup concatenation is nodup. -/
theorem nodup_middle_pair {α : Type} (A B C D : List α)
    (h : (A ++ (B ++ (C ++ D))).Nodup) : (B ++ C).Nodup := by
  have h1 : (B ++ C).Sublist ((B ++ C) ++ D) := List.sublist_append_left _ _
  rw [List.append_assoc] at h1
  have h3 : (B ++ (C ++ D)).Sublist (A ++ (B ++ (C ++ D))) :=
    List.sublist_append_right _ _
  exact List.Nodup.sublist (h1.trans h3) h

/-- Helper: one attribute step, under fresh keys and empty adopted telemetry,
appends the attribute item's datapoints and leaves the telemetry accounting
untouched. -/
theorem split_step_attribute_spec (L e : Nat) (s : SplitState) (a : ValuesDict)
    (htel : s.curTelemetry = [])
    (hfresh : ((s.curAttributes.map (·.1)) ++ (a.map (·.1))).Nodup) :
    stateAttrDatapoints (split_step_attribute L e s a)
        = stateAttrDatapoints s ++ a ∧
    (split_step_attribute L e s a).curTelemetry = [] ∧
    stateTriples (split_step_attribute L e s a) = stateTriples s := by
  have hupd : dictUpdate s.curAttributes a = s.curAttributes ++ a :=
    dictUpdate_of_fresh a s.curAttributes hfresh
  unfold split_step_attribute
  by_cases hb : L ≤ s.adoptedDataSize + jsonDictSize a
  · rw [if_pos hb]
    refine ⟨?_, htel, ?_⟩
    · simp [stateAttrDatapoints, fragmentsAttrDatapoints, hupd,
        List.flatMap_append, List.append_assoc]
    · simp [stateTriples, fragmentsTelemetryTriples, htel, telemetryTriples,
        List.flatMap_append]
  · rw [if_neg hb]
    refine ⟨?_, htel, rfl⟩
    simp [stateAttrDatapoints, hupd, List.append_assoc]

/-- Helper: the attribute loop appends the flattened attribute datapoints in order
(under globally distinct attribute keys) and leaves the telemetry accounting
untouched. -/
theorem attr_phase_spec (L e : Nat) :
    ∀ (as : List ValuesDict) (s : SplitState),
      s.curTelemetry = [] →
      (((stateAttrDatapoints s).map (·.1)) ++ ((as.flatten).map (·.1))).Nodup →
      stateAttrDatapoints (as.foldl (split_step_attribute L e) s)
          = stateAttrDatapoints s ++ as.flatten ∧
      (as.foldl (split_step_attribute L e) s).curTelemetry = [] ∧
      stateTriples (as.foldl (split_step_attribute L e) s) = stateTriples s := by
  intro as
  induction as with
  | nil => intro s htel _; exact ⟨by simp, htel, rfl⟩
  | cons a rest ih =>
    intro s htel hnd
    have hnd' : ((stateAttrDatapoints s).map (·.1) ++
        ((a.map (·.1)) ++ ((rest.flatten).map (·.1)))).Nodup := by
      simpa [List.flatten_cons, List.map_append, List.append_assoc] using hnd
    have hfresh : ((s.curAttributes.map (·.1)) ++ (a.map (·.1))).Nodup := by
      have hshape : (stateAttrDatapoints s).map (·.1)
          = (fragmentsAttrDatapoints (s.sentFrags.map (·.fragment))).map (·.1)
            ++ (s.curAttributes.map (·.1)) := by
        simp [stateAttrDatapoints]
      rw [hshape, List.append_assoc] at hnd'
      exact nodup_middle_pair _ _ _ _ hnd'
    obtain ⟨ha1, ha2, ha3⟩ := split_step_attribute_spec L e s a htel hfresh
    have hnd2 : (((stateAttrDatapoints (split_step_attribute L e s a)).map (·.1))
        ++ ((rest.flatten).map (·.1))).Nodup := by
      rw [ha1, List.map_append, List.append_assoc]
      exact hnd'
    obtain ⟨hb1, hb2, hb3⟩ := ih (split_step_attribute L e s a) ha2 hnd2
    refine ⟨?_, hb2, by rw [List.foldl_cons, hb3, ha3]⟩
    show stateAttrDatapoints
        (rest.foldl (split_step_attribute L e) (split_step_attribute L e s a))
      = stateAttrDatapoints s ++ (a :: rest).flatten
    rw [hb1, ha1, List.flatten_cons, List.append_assoc]

/-- Helper: merging a datapoint into the adopted entry carrying its ts (the key
being fresh in that entry) adds exactly that datapoint up to order, and preserves
the list of adopted timestamps. -/
theorem update_entry_triples (ts : Nat) (key : String) (v : Nat) :
    ∀ (cur : List TsKvEntry),
      (cur.map (·.ts)).Nodup →
      cur.any (fun e2 => decide (e2.ts = ts)) = true →
      (ts, key) ∉ pairsOf cur →
      (telemetryTriples (cur.map (fun e2 =>
          if e2.ts = ts then { e2 with values := dictSet e2.values key v }
          else e2))).Perm (telemetryTriples cur ++ [(ts, key, v)]) ∧
      (cur.map (fun e2 =>
          if e2.ts = ts then { e2 with values := dictSet e2.values key v }
          else e2)).map (·.ts) = cur.map (·.ts) := by
  intro cur
  induction cur with
  | nil => intro _ hany _; simp at hany
  | cons e rest ih =>
    intro hnd hany hnp
    by_cases hts : e.ts = ts
    · subst hts
      have hnotin : e.ts ∉ rest.map (·.ts) := by
        have h1 : (e.ts :: rest.map (·.ts)).Nodup := by simpa using hnd
        exact (List.nodup_cons.mp h1).1
      have hrest_eq : rest.map (fun e2 =>
          if e2.ts = e.ts then { e2 with values := dictSet e2.values key v }
          else e2) = rest := by
        have hcong : ∀ e2 ∈ rest,
            (if e2.ts = e.ts then { e2 with values := dictSet e2.values key v }
             else e2) = e2 := by
          intro e2 he2
          apply if_neg
          intro hcontra
          exact hnotin (List.mem_map.mpr ⟨e2, he2, hcontra⟩)
        rw [List.map_congr_left hcong, List.map_id']
      have hkfresh : dictHasKey e.values key = false := by
        by_contra hcontra
        have hk : dictHasKey e.values key = true := by
          cases hdk : dictHasKey e.values key
          · exact absurd hdk hcontra
          · rfl
        unfold dictHasKey at hk
        simp only [List.any_eq_true, decide_eq_true_eq] at hk
        obtain ⟨p, hp, hpk⟩ := hk
        apply hnp
        simp only [pairsOf, telemetryTriples, List.flatMap_cons, List.map_append,
          List.mem_append, List.map_map]
        left
        refine List.mem_map.mpr ⟨p, hp, ?_⟩
        simp [Function.comp, hpk]
      have hset : dictSet e.values key v = e.values ++ [(key, v)] :=
        dictSet_of_fresh e.values key v hkfresh
      have hhead : (if e.ts = e.ts then
            ({ e with values := dictSet e.values key v } : TsKvEntry) else e)
          = { ts := e.ts, values := e.values ++ [(key, v)] } := by
        rw [if_pos rfl, hset]
      have hlist : (e :: rest).map (fun e2 =>
            if e2.ts = e.ts then
              ({ e2 with values := dictSet e2.values key v } : TsKvEntry)
            else e2)
          = ({ ts := e.ts, values := e.values ++ [(key, v)] } : TsKvEntry)
            :: rest := by
        rw [List.map_cons, hrest_eq, hhead]
      constructor
      · rw [hlist]
        simp only [telemetryTriples, List.flatMap_cons, List.map_append,
          List.map_cons, List.map_nil]
        have hre : (e.values.map (fun p => (e.ts, p.1, p.2)) ++
              [(e.ts, key, v)]) ++
              rest.flatMap (fun e2 => e2.values.map (fun p => (e2.ts, p.1, p.2)))
            = e.values.map (fun p => (e.ts, p.1, p.2)) ++ ((e.ts, key, v) ::
              rest.flatMap (fun e2 => e2.values.map (fun p => (e2.ts, p.1, p.2)))) := by
          simp
        rw [hre]
        exact List.perm_middle.trans (List.perm_append_singleton _ _).symm
      · rw [hlist]
        simp
    · have hany' : rest.any (fun e2 => decide (e2.ts = ts)) = true := by
        simp only [List.any_cons, Bool.or_eq_true] at hany
        rcases hany with h | h
        · exact absurd (of_decide_eq_true h) hts
        · exact h
      have hnd' : (rest.map (·.ts)).Nodup := by
        have h1 : (e.ts :: rest.map (·.ts)).Nodup := by simpa using hnd
        exact (List.nodup_cons.mp h1).2
      have hnp' : (ts, key) ∉ pairsOf rest := by
        intro hc
        apply hnp
        simp only [pairsOf, telemetryTriples, List.flatMap_cons, List.map_append,
          List.mem_append] at hc ⊢
        right
        exact hc
      obtain ⟨ihp, ihts⟩ := ih hnd' hany' hnp'
      constructor
      · simp only [List.map_cons, if_neg hts]
        simp only [telemetryTriples, List.flatMap_cons] at ihp ⊢
        rw [List.append_assoc]
        exact List.Perm.append_left _ ihp
      · simp only [List.map_cons, if_neg hts]
        rw [ihts]



/-- Helper: one telemetry-datapoint step preserves the attribute accounting, adds
exactly its datapoint to the telemetry accounting (up to order), keeps the adopted
timestamps distinct, and adds at most the pair (ts, key) to the adopted pairs. -/
theorem split_step_kv_spec (L e : Nat) (s : SplitState) (ts : Nat) (key : String)
    (v : Nat) (hN : (s.curTelemetry.map (·.ts)).Nodup)
    (hnp : (ts, key) ∉ pairsOf s.curTelemetry) :
    stateAttrDatapoints (split_step_kv L e s ts key v) = stateAttrDatapoints s ∧
    (stateTriples (split_step_kv L e s ts key v)).Perm
        (stateTriples s ++ [(ts, key, v)]) ∧
    ((split_step_kv L e s ts key v).curTelemetry.map (·.ts)).Nodup ∧
    (∀ p ∈ pairsOf (split_step_kv L e s ts key v).curTelemetry,
      p ∈ pairsOf s.curTelemetry ∨ p = (ts, key)) := by
  by_cases hg : s.curTelemetry.any (fun e2 => decide (e2.ts = ts)) = true
  · obtain ⟨hperm, htsmap⟩ := update_entry_triples ts key v s.curTelemetry hN hg hnp
    have hperm' : (telemetryTriples (mergedTelemetry s.curTelemetry ts key v)).Perm (telemetryTriples s.curTelemetry ++ [(ts, key, v)]) := hperm
    have htsmap' : (mergedTelemetry s.curTelemetry ts key v).map (·.ts) = s.curTelemetry.map (·.ts) := htsmap
    have hpairs : (pairsOf (mergedTelemetry s.curTelemetry ts key v)).Perm (pairsOf s.curTelemetry ++ [(ts, key)]) := by
      unfold pairsOf
      have h1 := hperm'.map (fun x => (x.1, x.2.1))
      simpa using h1
    by_cases hb : L ≤ s.adoptedDataSize + jsonDictSize [(key, v)]
    · have hstep : split_step_kv L e s ts key v = { sentFrags := s.sentFrags ++ [{ fragment := { attributes := s.curAttributes, telemetry := mergedTelemetry s.curTelemetry ts key v }, sizeBeforeLastPiece := s.adoptedDataSize, lastPieceSize := jsonDictSize [(key, v)] }], curAttributes := [], curTelemetry := [], adoptedDataSize := e } := by
        simp [split_step_kv, mergedTelemetry, hg, hb]
      rw [hstep]
      refine ⟨?_, ?_, by simp, by simp [pairsOf, telemetryTriples]⟩
      · simp [stateAttrDatapoints, fragmentsAttrDatapoints, List.flatMap_append]
      · simp only [stateTriples, fragmentsTelemetryTriples, List.map_append, List.flatMap_append, List.map_cons, List.flatMap_cons, List.map_nil, List.flatMap_nil, List.append_nil, telemetryTriples]
        rw [List.append_assoc]
        refine List.Perm.append_left _ ?_
        simpa [telemetryTriples] using hperm'
    · have hstep : split_step_kv L e s ts key v = { s with curTelemetry := mergedTelemetry s.curTelemetry ts key v, adoptedDataSize := s.adoptedDataSize + jsonDictSize [(key, v)] } := by
        simp [split_step_kv, mergedTelemetry, hg, hb]
      rw [hstep]
      refine ⟨rfl, ?_, ?_, ?_⟩
      · simp only [stateTriples]
        rw [List.append_assoc]
        exact List.Perm.append_left _ hperm'
      · show ((mergedTelemetry s.curTelemetry ts key v).map (·.ts)).Nodup
        rw [htsmap']
        exact hN
      · intro p hp
        have := (hpairs.mem_iff).mp hp
        rcases List.mem_append.mp this with h | h
        · exact Or.inl h
        · exact Or.inr (List.mem_singleton.mp h)
  · have hgf : s.curTelemetry.any (fun e2 => decide (e2.ts = ts)) = false := by
      cases h : s.curTelemetry.any (fun e2 => decide (e2.ts = ts))
      · rfl
      · exact absurd h hg
    have hne : ∀ e2 ∈ s.curTelemetry, e2.ts ≠ ts := by
      intro e2 he2
      have := List.any_eq_false.mp hgf e2 he2
      simpa using this
    have htt : telemetryTriples (s.curTelemetry ++ [{ ts := ts, values := [(key, v)] }]) = telemetryTriples s.curTelemetry ++ [(ts, key, v)] := by
      simp [telemetryTriples, List.flatMap_append]
    have htsnd : ((s.curTelemetry ++ [({ ts := ts, values := [(key, v)] } : TsKvEntry)]).map (·.ts)).Nodup := by
      rw [List.map_append]
      refine List.nodup_append.mpr ⟨hN, by simp, ?_⟩
      intro b hb1 hb2
      simp only [List.map_cons, List.map_nil, List.mem_singleton] at hb2
      subst hb2
      obtain ⟨e2, he2, he2ts⟩ := List.mem_map.mp hb1
      exact hne e2 he2 he2ts
    have hpairs2 : pairsOf (s.curTelemetry ++ [{ ts := ts, values := [(key, v)] }]) = pairsOf s.curTelemetry ++ [(ts, key)] := by
      unfold pairsOf
      rw [htt, List.map_append]
      simp
    by_cases hb : L ≤ s.adoptedDataSize + jsonTsEntrySize { ts := ts, values := [(key, v)] }
    · have hstep : split_step_kv L e s ts key v = { sentFrags := s.sentFrags ++ [{ fragment := { attributes := s.curAttributes, telemetry := s.curTelemetry ++ [{ ts := ts, values := [(key, v)] }] }, sizeBeforeLastPiece := s.adoptedDataSize, lastPieceSize := jsonTsEntrySize { ts := ts, values := [(key, v)] } }], curAttributes := [], curTelemetry := [], adoptedDataSize := e } := by
        simp [split_step_kv, hgf, hb]
      rw [hstep]
      refine ⟨?_, ?_, by simp, by simp [pairsOf, telemetryTriples]⟩
      · simp [stateAttrDatapoints, fragmentsAttrDatapoints, List.flatMap_append]
      · simp only [stateTriples, fragmentsTelemetryTriples, List.map_append, List.flatMap_append, List.map_cons, List.flatMap_cons, List.map_nil, List.flatMap_nil, List.append_nil]
        rw [show telemetryTriples ([] : List TsKvEntry) = [] from rfl, List.append_nil, htt, List.append_assoc]
    · have hstep : split_step_kv L e s ts key v = { s with curTelemetry := s.curTelemetry ++ [{ ts := ts, values := [(key, v)] }], adoptedDataSize := s.adoptedDataSize + jsonTsEntrySize { ts := ts, values := [(key, v)] } } := by
        simp [split_step_kv, hgf, hb]
      rw [hstep]
      refine ⟨rfl, ?_, htsnd, ?_⟩
      · simp only [stateTriples]
        rw [htt, List.append_assoc]
      · intro p hp
        rw [hpairs2] at hp
        rcases List.mem_append.mp hp with h | h
        · exact Or.inl h
        · exact Or.inr (List.mem_singleton.mp h)

/-- Helper: the telemetry loop preserves the attribute accounting and appends the
processed datapoints to the telemetry accounting, up to order, provided the
(ts, key) pairs of the whole stream are pairwise distinct and the adopted pairs
come from the already-processed part. -/
theorem kv_phase_spec (L e : Nat) :
    ∀ (xs done : List (Nat × String × Nat)) (s : SplitState),
      (s.curTelemetry.map (·.ts)).Nodup →
      (∀ p ∈ pairsOf s.curTelemetry, p ∈ done.map (fun x => (x.1, x.2.1))) →
      (((done ++ xs).map (fun x => (x.1, x.2.1)))).Nodup →
      stateAttrDatapoints
          (xs.foldl (fun s2 x => split_step_kv L e s2 x.1 x.2.1 x.2.2) s)
        = stateAttrDatapoints s ∧
      (stateTriples
          (xs.foldl (fun s2 x => split_step_kv L e s2 x.1 x.2.1 x.2.2) s)).Perm
        (stateTriples s ++ xs) := by
  intro xs
  induction xs with
  | nil => intro done s _ _ _; exact ⟨rfl, by simp⟩
  | cons x rest ih =>
    intro done s hN hsub hND
    obtain ⟨ts, key, v⟩ := x
    have hnp : (ts, key) ∉ pairsOf s.curTelemetry := by
      intro hc
      have h1 : (ts, key) ∈ done.map (fun x => (x.1, x.2.1)) := hsub _ hc
      have h2 : (ts, key) ∈ ((ts, key, v) :: rest).map (fun x => (x.1, x.2.1)) := by
        simp
      rw [List.map_append] at hND
      exact (List.disjoint_of_nodup_append hND) h1 h2
    obtain ⟨hA, hP, hN', hsub'⟩ := split_step_kv_spec L e s ts key v hN hnp
    have hsub2 : ∀ p ∈ pairsOf (split_step_kv L e s ts key v).curTelemetry,
        p ∈ (done ++ [(ts, key, v)]).map (fun x => (x.1, x.2.1)) := by
      intro p hp
      rw [List.map_append, List.mem_append]
      rcases hsub' p hp with h | h
      · exact Or.inl (hsub p h)
      · right
        simp [h]
    have hND2 : (((done ++ [(ts, key, v)]) ++ rest).map
        (fun x => (x.1, x.2.1))).Nodup := by
      rw [List.append_assoc]
      simpa using hND
    obtain ⟨ihA, ihP⟩ := ih (done ++ [(ts, key, v)]) (split_step_kv L e s ts key v)
      hN' hsub2 hND2
    constructor
    · show stateAttrDatapoints (rest.foldl
          (fun s2 x => split_step_kv L e s2 x.1 x.2.1 x.2.2)
          (split_step_kv L e s ts key v)) = stateAttrDatapoints s
      rw [ihA, hA]
    · show (stateTriples (rest.foldl
          (fun s2 x => split_step_kv L e s2 x.1 x.2.1 x.2.2)
          (split_step_kv L e s ts key v))).Perm
          (stateTriples s ++ (ts, key, v) :: rest)
      have hstep2 : (stateTriples (split_step_kv L e s ts key v) ++ rest).Perm
          (stateTriples s ++ (ts, key, v) :: rest) := by
        have h1 := hP.append_right rest
        have h2 : (stateTriples s ++ [(ts, key, v)]) ++ rest
            = stateTriples s ++ ((ts, key, v) :: rest) := by
          simp
        rw [h2] at h1
        exact h1
      exact ihP.trans hstep2

/-- Helper: the whole splitter run accounts for exactly the record's attribute
datapoints (in order) and its telemetry datapoints (up to order), when attribute
keys and (ts, key) telemetry pairs are pairwise distinct. -/
theorem split_run_attrs_and_triples (L : Nat) (d : LegacyRecord)
    (hA : ((d.attributes.flatten).map (·.1)).Nodup)
    (hT : ((telemetryTriples d.telemetry).map (fun x => (x.1, x.2.1))).Nodup) :
    stateAttrDatapoints (split_old_formatted_run L d) = d.attributes.flatten ∧
    (stateTriples (split_old_formatted_run L d)).Perm
      (telemetryTriples d.telemetry) := by
  have h0a : stateAttrDatapoints
      ({ sentFrags := [], curAttributes := [], curTelemetry := [], adoptedDataSize := empty_adopted_data_size d } : SplitState) = [] := by
    simp [stateAttrDatapoints, fragmentsAttrDatapoints]
  have h0t : stateTriples
      ({ sentFrags := [], curAttributes := [], curTelemetry := [], adoptedDataSize := empty_adopted_data_size d } : SplitState) = [] := by
    simp [stateTriples, fragmentsTelemetryTriples, telemetryTriples]
  obtain ⟨h1a, h1tel, h1t⟩ := attr_phase_spec L (empty_adopted_data_size d)
    d.attributes
    ({ sentFrags := [], curAttributes := [], curTelemetry := [], adoptedDataSize := empty_adopted_data_size d } : SplitState)
    rfl (by rw [h0a]; simpa using hA)
  obtain ⟨h2a, h2p⟩ := kv_phase_spec L (empty_adopted_data_size d)
    (telemetryTriples d.telemetry) []
    (d.attributes.foldl
      (split_step_attribute L (empty_adopted_data_size d))
      ({ sentFrags := [], curAttributes := [], curTelemetry := [], adoptedDataSize := empty_adopted_data_size d } : SplitState))
    (by rw [h1tel]; simp)
    (by rw [h1tel]; simp [pairsOf, telemetryTriples])
    (by simpa using hT)
  constructor
  · show stateAttrDatapoints (split_old_formatted_run L d) = d.attributes.flatten
    unfold split_old_formatted_run
    rw [h2a, h1a, h0a]
    simp
  · show (stateTriples (split_old_formatted_run L d)).Perm
      (telemetryTriples d.telemetry)
    unfold split_old_formatted_run
    refine h2p.trans ?_
    rw [h1t, h0t]
    simp

/-- Helper: the emitted fragments carry exactly the datapoints the final split
state accounts for. -/
theorem split_fragments_eq_state (L : Nat) (d : LegacyRecord) :
    fragmentsAttrDatapoints (split_old_formatted_data L d)
        = stateAttrDatapoints (split_old_formatted_run L d) ∧
    fragmentsTelemetryTriples (split_old_formatted_data L d)
        = stateTriples (split_old_formatted_run L d) := by
  have hsplit : split_old_formatted_data L d = (split_old_formatted_run L d).sentFrags.map (·.fragment) ++ (if (split_old_formatted_run L d).curTelemetry.length > 0 ∨ (split_old_formatted_run L d).curAttributes.length > 0 then [{ attributes := (split_old_formatted_run L d).curAttributes, telemetry := (split_old_formatted_run L d).curTelemetry }] else []) := rfl
  rw [hsplit]
  by_cases hc : (split_old_formatted_run L d).curTelemetry.length > 0 ∨
      (split_old_formatted_run L d).curAttributes.length > 0
  · rw [if_pos hc]
    constructor
    · simp [fragmentsAttrDatapoints, stateAttrDatapoints, List.flatMap_append]
    · simp [fragmentsTelemetryTriples, stateTriples, List.flatMap_append]
  · rw [if_neg hc]
    push_neg at hc
    have h1 : (split_old_formatted_run L d).curTelemetry = [] :=
      List.eq_nil_of_length_eq_zero (by omega)
    have h2 : (split_old_formatted_run L d).curAttributes = [] :=
      List.eq_nil_of_length_eq_zero (by omega)
    constructor
    · simp [fragmentsAttrDatapoints, stateAttrDatapoints, h2]
    · simp [fragmentsTelemetryTriples, stateTriples, h1, telemetryTriples]

/-- C2 (amended): when the record's attribute keys are pairwise distinct and no
(ts, key) telemetry pair repeats, the multiset union of the attributes and of the
telemetry datapoints over all fragments equals that of the record (dict merging
collapses repeated keys otherwise); and a fragment is sent only once the
accumulated size has reached the limit L, so (when the empty record itself fits
under L) each flushed fragment's accumulated size was below L before its last
piece and at or above L with it, while the leftover fragment stays below L.
Fragment sizes are therefore not bounded by L but by L plus the last piece. -/
theorem split_old_formatted_correctness (L : Nat) (d : LegacyRecord)
    (hA : ((d.attributes.flatten).map (·.1)).Nodup)
    (hT : ((telemetryTriples d.telemetry).map (fun x => (x.1, x.2.1))).Nodup) :
    (fragmentsAttrDatapoints (split_old_formatted_data L d)
        : Multiset (String × Nat))
      = (d.attributes.flatten : Multiset (String × Nat)) ∧
    ((fragmentsTelemetryTriples (split_old_formatted_data L d)
        : Multiset (Nat × String × Nat))
      = (telemetryTriples d.telemetry : Multiset (Nat × String × Nat))) ∧
    (empty_adopted_data_size d < L →
      (split_old_formatted_run L d).adoptedDataSize < L ∧
      ∀ sf ∈ (split_old_formatted_run L d).sentFrags,
        sf.sizeBeforeLastPiece < L ∧
          L ≤ sf.sizeBeforeLastPiece + sf.lastPieceSize) := by
  obtain ⟨ha, ht⟩ := split_run_attrs_and_triples L d hA hT
  obtain ⟨hfa, hft⟩ := split_fragments_eq_state L d
  refine ⟨?_, ?_, ?_⟩
  · rw [hfa, ha]
  · rw [hft]
    exact Multiset.coe_eq_coe.mpr ht
  · intro he
    have h := sizeBounds_run L d he
    exact ⟨h.1, h.2⟩

/-- Witness for the amended C2 theorem at a record with one attribute and three
telemetry datapoints, two sharing a timestamp, split at limit 90. -/
theorem split_old_formatted_correctness_witness :
    (fragmentsAttrDatapoints (split_old_formatted_data 90 recordMixed)
        : Multiset (String × Nat))
      = (recordMixed.attributes.flatten : Multiset (String × Nat)) ∧
    ((fragmentsTelemetryTriples (split_old_formatted_data 90 recordMixed)
        : Multiset (Nat × String × Nat))
      = (telemetryTriples recordMixed.telemetry
          : Multiset (Nat × String × Nat))) ∧
    ((split_old_formatted_run 90 recordMixed).adoptedDataSize < 90 ∧
      ∀ sf ∈ (split_old_formatted_run 90 recordMixed).sentFrags,
        sf.sizeBeforeLastPiece < 90 ∧
          90 ≤ sf.sizeBeforeLastPiece + sf.lastPieceSize) := by
  have h := split_old_formatted_correctness 90 recordMixed (by decide) (by decide)
  exact ⟨h.1, h.2.1, h.2.2 (by decide)⟩
